import Mathlib

/-
Verification development for wave-buoy-stats.py (CeNCOOS/wave-stats).

The script fetches per-buoy datasets from the CDIP THREDDS server
(get_buoy_data), draws per-station time-series panels
(make_timeseries_plots / plot_buoy), a station map
(make_buoy_map / get_station_locations) and a wave-height density plot
(make_density_plots).

Modelling conventions:
  * Timestamps are integers (seconds); `datetime.now()` / `datetime.today()`
    become an explicit `now`/`today` parameter.
  * Floating point values are modelled as integers carrying a fixed-point
    scale; the unit conversions (`*3.28084`, `/0.3048`) become the integer
    operations `to_feet` and `m_to_ft_plot`.  No claim under study depends
    on float rounding.
  * The network (xr.open_dataset on a THREDDS URL) is an oracle
    `net : Nat -> String -> Except String Dataset`, indexed by a global
    call counter so that distinct fetches of the same station may differ
    within one run; python exceptions are the `Except` error case.
  * Python exceptions escaping a function are the `.error` case of the
    function result; partially built local state is discarded, as in python.
  * pandas `reindex(index, method='nearest', limit=3)` is modelled after the
    pandas implementation: forward (pad) and backward (backfill) fill
    indexers, each honouring `limit` as a cap on consecutive non-exact fills
    per source span, combined per position by choosing the strictly nearer
    side (ties and an absent backfill side resolve per the pandas
    `np.where(left_dist < right_dist | right == -1, left, right)` formula,
    with the pandas quirk that an absent pad index reads the distance of the
    last source element).  No `tolerance` argument is passed by the script.
  * numpy `ndarray.max()` on an empty array raises; modelled by `np_max`
    returning `.error` on `[]`.
-/

namespace WaveStats

/-- Seconds in a day; `timedelta(days=n)` is `n * day`. -/
def day : Int := 86400

/-- Model of the xarray dataset served for one buoy: the wave time axis with
significant wave height (meters, fixed point), and the GPS track
(gpsLat/gpsLon indexed by the gps time axis). -/
structure Dataset where
  waveTime : List Int
  waveHs : List Int
  gpsLat : List Int
  gpsLon : List Int
  deriving Repr, DecidableEq

/-- Base of the CDIP THREDDS realtime URL, as in the script. -/
def base_str : String := "https://thredds.cdip.ucsd.edu/thredds/dodsC/cdip/realtime/"

/-- Request URL built by get_buoy_data. -/
def requestUrl (buoy_id : String) : String := base_str ++ buoy_id ++ "p1_rt.nc"

/-- get_buoy_data: one call to xr.open_dataset on the templated URL; any
exception is collapsed to None (here `none`).  `open_dataset` is the network
oracle for this single call. -/
def get_buoy_data (open_dataset : String → Except String Dataset)
    (buoy_id : String) : Option Dataset :=
  match open_dataset (requestUrl buoy_id) with
  | .ok ds => some ds
  | .error _ => none

/-- URLs requested by one call of get_buoy_data (the body contains exactly
one open_dataset call). -/
def get_buoy_data_requests (buoy_id : String) : List String :=
  [requestUrl buoy_id]

/-- ds.sel(waveTime=slice(lo, hi)): label slicing on the (sorted) time axis,
inclusive at both endpoints, restricting waveTime and waveHs together. -/
def sel_waveTime (ds : Dataset) (lo hi : Int) : Dataset :=
  let keep := (ds.waveTime.zip ds.waveHs).filter (fun p => lo ≤ p.1 ∧ p.1 ≤ hi)
  { ds with waveTime := keep.map (·.1), waveHs := keep.map (·.2) }

/-- numpy max over an array: raises on an empty array. -/
def np_max : List Int → Except String Int
  | [] => .error "ValueShape: zero-size array to reduction operation maximum"
  | x :: xs => .ok (xs.foldl max x)

/-- Integer model of the float division by 0.3048 (meters to feet) used in
plot_buoy. -/
def m_to_ft_plot (v : Int) : Int := v * 10000 / 3048

/-- plot_buoy: slices the last 10 days of waveHs (plotted); when max_hs is
set it rebinds max_hs to sig_wave.max()/0.3048 over that slice (raising on
an empty slice); then re-slices the last 1 day (plotted).  The final
`if max_hs:` tests the REBOUND float value: when the converted maximum is
exactly 0.0 it is falsy and the function returns only the 2-tuple
(ax, last_month) — modelled as the `none` maximum — otherwise the 3-tuple
with the maximum (`some`). -/
def plot_buoy (ds : Dataset) (now : Int) (max_hs : Bool) :
    Except String (Dataset × Option Int) :=
  let last_month := sel_waveTime ds (now - 10 * day) now
  if max_hs then
    match np_max last_month.waveHs with
    | .error e => .error e
    | .ok m =>
      let mf := m_to_ft_plot m
      if mf = 0 then .ok (sel_waveTime ds (now - 1 * day) now, none)
      else .ok (sel_waveTime ds (now - 1 * day) now, some mf)
  else
    .ok (sel_waveTime ds (now - 1 * day) now, none)

/-- ds.isel(gpsTime=-1) on one gps variable: the last element of the series,
an IndexError when the axis is empty. -/
def isel_last (l : List Int) : Except String Int :=
  match l.getLast? with
  | some x => .ok x
  | none => .error "IndexError: index -1 is out of bounds"

/-- get_station_locations: one fetch per roster entry (threading the global
call counter), appending the station name always, and either the last GPS
fix (Online) or None coordinates (Offline).  Returns the three lists plus
the next call counter. -/
def get_station_locations (net : Nat → String → Except String Dataset) :
    Nat → List (String × String) →
    Except String ((List String × List (Option Int) × List (Option Int)) × Nat)
  | c, [] => .ok (([], [], []), c)
  | c, (key, value) :: rest =>
    match get_buoy_data (net c) value with
    | none => do
      let ((ns, las, los), c2) ← get_station_locations net (c + 1) rest
      .ok ((key :: ns, none :: las, none :: los), c2)
    | some ds => do
      let lat ← isel_last ds.gpsLat
      let lon ← isel_last ds.gpsLon
      let ((ns, las, los), c2) ← get_station_locations net (c + 1) rest
      .ok ((key :: ns, some lat :: las, some lon :: los), c2)

/-- One panel of make_timeseries_plots: either the Offline placeholder
(station name and cdip id texts) or the Online plot (last-day slice, the
computed max, and the roster position that selects the panel colour). -/
inductive Panel where
  | offline (name cdip_id : String)
  | online (name : String) (lastDay : Dataset) (maxHs : Option Int) (colorIndex : Nat)
  deriving Repr, DecidableEq

/-- Name shown on a panel. -/
def Panel.name : Panel → String
  | .offline n _ => n
  | .online n _ _ _ => n

/-- Whether a panel is the Offline placeholder. -/
def Panel.isOffline : Panel → Bool
  | .offline _ _ => true
  | .online _ _ _ _ => false

/-- make_timeseries_plots: one fetch per roster entry (threading the global
call counter `c` and the enumeration index `i`); an unavailable station gets
the Offline placeholder panel, an available one is drawn via
plot_buoy(..., max_hs=True), whose exception aborts the whole figure.  The
caller unpacks three values (`ax_current, ds, max_hs = plot_buoy(...)`), so
when plot_buoy returns its 2-tuple shape (converted window maximum exactly
0.0) the unpack raises ValueError, also aborting the figure. -/
def make_timeseries_plots (net : Nat → String → Except String Dataset) (now : Int) :
    Nat → Nat → List (String × String) → Except String (List Panel × Nat)
  | c, _, [] => .ok ([], c)
  | c, i, (key, value) :: rest =>
    match get_buoy_data (net c) value with
    | none => do
      let (ps, c2) ← make_timeseries_plots net now (c + 1) (i + 1) rest
      .ok (.offline key value :: ps, c2)
    | some ds =>
      match plot_buoy ds now true with
      | .error e => .error e
      | .ok (_, none) =>
        .error "ValueError: not enough values to unpack (expected 3, got 2)"
      | .ok (lastDay, some mv) => do
        let (ps, c2) ← make_timeseries_plots net now (c + 1) (i + 1) rest
        .ok (.online key lastDay (some mv) i :: ps, c2)

/-- Index of the rightmost element of `old` that is ≤ t, for a sorted
ascending `old` (pandas requires monotonicity for fill reindexing). -/
def lastLE (old : List Int) (t : Int) : Option Nat :=
  let n := (old.takeWhile (fun x => x ≤ t)).length
  if n = 0 then none else some (n - 1)

/-- Forward-fill (pad) indexer loop, after pandas `libalgos.pad`: walk the
sorted targets keeping the current source span `cur` and the count `fc` of
non-exact fills already spent in that span; an exact match is always
recorded and costs nothing, a non-exact fill is recorded only while
`fc < lim`, and the count resets when the span advances. -/
def padGo (old : List Int) (lim : Nat) : Option Nat → Nat → List Int → List (Option Nat)
  | _, _, [] => []
  | cur, fc, t :: ts =>
    match lastLE old t with
    | none => none :: padGo old lim cur fc ts
    | some i =>
      let fc2 := if cur = some i then fc else 0
      if old.getD i 0 = t then some i :: padGo old lim (some i) fc2 ts
      else if fc2 < lim then some i :: padGo old lim (some i) (fc2 + 1) ts
      else none :: padGo old lim (some i) fc2 ts

/-- Forward-fill indexer for a whole target axis. -/
def padRun (old : List Int) (lim : Nat) (targets : List Int) : List (Option Nat) :=
  padGo old lim none 0 targets

/-- Backward-fill (backfill) indexer, after pandas `libalgos.backfill`: the
mirror image of pad — reverse and negate both axes, pad, and reflect the
resulting indexes. -/
def backfillRun (old : List Int) (lim : Nat) (targets : List Int) : List (Option Nat) :=
  ((padRun (old.reverse.map (fun x => -x)) lim (targets.reverse.map (fun x => -x))).reverse).map
    (Option.map (fun i => old.length - 1 - i))

/-- Per-position combination of the two directional indexers, after pandas
`Index._get_nearest_indexer`: `np.where(left_dist < right_dist or right
absent, left, right)`, where an absent left index reads the distance of the
LAST source element (the numpy -1 indexing quirk). -/
def nearestCombine (old : List Int) (t : Int) (l r : Option Nat) : Option Nat :=
  match r with
  | none => l
  | some ri =>
    let lv := match l with
      | some li => old.getD li 0
      | none => old.getD (old.length - 1) 0
    if (lv - t).natAbs < (old.getD ri 0 - t).natAbs then l else some ri

/-- Pointwise combination over the three equal-length lists. -/
def combineAll (old : List Int) : List Int → List (Option Nat) → List (Option Nat) → List (Option Nat)
  | t :: ts, l :: ls, r :: rs => nearestCombine old t l r :: combineAll old ts ls rs
  | _, _, _ => []

/-- Nearest indexer with limit and no tolerance, as produced by
`reindex(targets, method='nearest', limit=lim)` on a series indexed by
`old`. -/
def reindexIdx (old : List Int) (lim : Nat) (targets : List Int) : List (Option Nat) :=
  combineAll old targets (padRun old lim targets) (backfillRun old lim targets)

/-- Reindexed values: position j of the result carries the source value at
the combined nearest index, or is missing (NaN in pandas). -/
def reindex_nearest (old : List Int) (vals : List Int) (lim : Nat) (targets : List Int) :
    List (Option Int) :=
  (reindexIdx old lim targets).map (fun oi => oi.bind (fun i => vals.get? i))

/-- Integer model of the float multiplication by 3.28084 (meters to feet)
used in make_density_plots (fixed point, scale 10^5). -/
def to_feet (v : Int) : Int := v * 328084

/-- Keep the elements of a list whose mask bit is true (row selection
`df[mask]` applied to one column). -/
def maskFilter {α : Type} : List Bool → List α → List α
  | b :: bs, x :: xs => if b then x :: maskFilter bs xs else maskFilter bs xs
  | _, _ => []

/-- Result of make_density_plots before rendering: the reference index
(df_index, the first station's full waveTime axis), the assembled columns in
roster order, and their restriction to the trailing 30 days
(`df[df.index > today - timedelta(days=30)]`). -/
structure DensityResult where
  df_index : List Int
  columns : List (String × List (Option Int))
  recent_index : List Int
  recent_columns : List (String × List (Option Int))
  deriving Repr, DecidableEq

/-- Loop body of make_density_plots for the stations after the first: fetch
(threading the call counter), build the converted series, and reindex it
onto df_index with method='nearest', limit=3.  A None dataset is
subscripted unguarded, raising TypeError. -/
def density_go (net : Nat → String → Except String Dataset) (df_index : List Int) :
    Nat → List (String × String) →
    Except String (List (String × List (Option Int)) × Nat)
  | c, [] => .ok ([], c)
  | c, (key, value) :: rest =>
    match get_buoy_data (net c) value with
    | none => .error "TypeError: 'NoneType' object is not subscriptable"
    | some ds => do
      let col := reindex_nearest ds.waveTime (ds.waveHs.map to_feet) 3 df_index
      let (cols, c2) ← density_go net df_index (c + 1) rest
      .ok ((key, col) :: cols, c2)

/-- make_density_plots: the first roster station (fetched unguarded — a None
dataset raises TypeError) supplies df_index and its own converted series as
the first column; every later station is reindexed onto df_index by
density_go; finally only rows with index strictly after today - 30 days are
kept.  An empty roster leaves df undefined (NameError at the df_recent
line). -/
def make_density_plots (net : Nat → String → Except String Dataset) (today : Int) :
    Nat → List (String × String) → Except String (DensityResult × Nat)
  | _, [] => .error "NameError: name df is not defined"
  | c, (key0, value0) :: rest =>
    match get_buoy_data (net c) value0 with
    | none => .error "TypeError: 'NoneType' object is not subscriptable"
    | some ds0 => do
      let df_index := ds0.waveTime
      let col0 : List (Option Int) := (ds0.waveHs.map to_feet).map some
      let (cols, c2) ← density_go net df_index (c + 1) rest
      let allCols := (key0, col0) :: cols
      let mask := df_index.map (fun t => decide (today - 30 * day < t))
      .ok (⟨df_index, allCols,
            maskFilter mask df_index,
            allCols.map (fun nc => (nc.1, maskFilter mask nc.2))⟩, c2)

/-- Index of the leftmost element of `old` that is ≥ t, for a sorted
ascending `old`; the declarative counterpart of the backfill indexer on a
single target. -/
def firstGE (old : List Int) (t : Int) : Option Nat :=
  let k := old.countP (fun x => x < t)
  if k = old.length then none else some k

/-- One whole run of the script's main block: make_timeseries_plots, then
make_buoy_map (whose data content is its get_station_locations call), then
make_density_plots, each performing its own fetches against the shared call
counter; an uncaught exception in one stops the run. -/
def main_run (net : Nat → String → Except String Dataset)
    (roster : List (String × String)) (now : Int) :
    Except String ((List Panel ×
      (List String × List (Option Int) × List (Option Int)) ×
      DensityResult) × Nat) := do
  let (panels, c1) ← make_timeseries_plots net now 0 0 roster
  let (locs, c2) ← get_station_locations net c1 roster
  let (dens, c3) ← make_density_plots net now c2 roster
  .ok ((panels, locs, dens), c3)

/-! ### Helper lemmas about the alignment machinery -/

theorem padGo_length (old : List Int) (lim : Nat) :
    ∀ (ts : List Int) (cur : Option Nat) (fc : Nat),
      (padGo old lim cur fc ts).length = ts.length := by
  intro ts
  induction ts with
  | nil => intro cur fc; rfl
  | cons t ts ih =>
    intro cur fc
    simp only [padGo]
    split
    · simp [ih]
    · split
      · simp [ih]
      · split <;> split <;> simp [ih]

theorem padRun_length (old : List Int) (lim : Nat) (targets : List Int) :
    (padRun old lim targets).length = targets.length :=
  padGo_length old lim targets none 0

theorem backfillRun_length (old : List Int) (lim : Nat) (targets : List Int) :
    (backfillRun old lim targets).length = targets.length := by
  simp [backfillRun, padRun, padGo_length]

theorem combineAll_length (old : List Int) :
    ∀ (ts : List Int) (ls rs : List (Option Nat)),
      ls.length = ts.length → rs.length = ts.length →
      (combineAll old ts ls rs).length = ts.length := by
  intro ts
  induction ts with
  | nil => intro ls rs _ _; rfl
  | cons t ts ih =>
    intro ls rs hl hr
    cases ls with
    | nil => simp at hl
    | cons l ls =>
      cases rs with
      | nil => simp at hr
      | cons r rs =>
        simp only [combineAll, List.length_cons]
        rw [ih ls rs (by simpa using hl) (by simpa using hr)]

theorem reindexIdx_length (old : List Int) (lim : Nat) (targets : List Int) :
    (reindexIdx old lim targets).length = targets.length :=
  combineAll_length old targets _ _ (padRun_length old lim targets)
    (backfillRun_length old lim targets)

theorem reindex_nearest_length (old vals : List Int) (lim : Nat) (targets : List Int) :
    (reindex_nearest old vals lim targets).length = targets.length := by
  simp [reindex_nearest, reindexIdx_length]

theorem padGo_nil_src (lim : Nat) :
    ∀ (ts : List Int) (cur : Option Nat) (fc : Nat),
      padGo [] lim cur fc ts = ts.map (fun _ => none) := by
  intro ts
  induction ts with
  | nil => intro cur fc; rfl
  | cons t ts ih =>
    intro cur fc
    simp only [padGo, lastLE, List.takeWhile_nil, List.length_nil, List.map_cons]
    simp [ih]

theorem backfillRun_nil_src (lim : Nat) (ts : List Int) :
    backfillRun [] lim ts = ts.map (fun _ => none) := by
  simp [backfillRun, padRun, padGo_nil_src, Function.comp_def]

theorem combineAll_nil_both (old : List Int) :
    ∀ (ts : List Int),
      combineAll old ts (ts.map (fun _ => none)) (ts.map (fun _ => none)) =
        ts.map (fun _ => none) := by
  intro ts
  induction ts with
  | nil => rfl
  | cons t ts ih =>
    simp only [List.map_cons, combineAll, nearestCombine]
    rw [ih]

theorem reindex_nearest_nil_src (vals : List Int) (lim : Nat) (targets : List Int) :
    reindex_nearest [] vals lim targets = targets.map (fun _ => none) := by
  simp only [reindex_nearest, reindexIdx, padRun, padGo_nil_src, backfillRun_nil_src,
    combineAll_nil_both]
  simp [List.map_map, Function.comp_def]

theorem maskFilter_length_eq {α β : Type} :
    ∀ (bs : List Bool) (xs : List α) (ys : List β),
      xs.length = ys.length →
      (maskFilter bs xs).length = (maskFilter bs ys).length := by
  intro bs
  induction bs with
  | nil => intro xs ys _; rfl
  | cons b bs ih =>
    intro xs ys h
    cases xs with
    | nil =>
      cases ys with
      | nil => rfl
      | cons y ys => simp at h
    | cons x xs =>
      cases ys with
      | nil => simp at h
      | cons y ys =>
        cases b <;> simp [maskFilter, ih xs ys (by simpa using h)]

/-- Spec of the density loop over the non-reference stations: on success,
every produced column has the reference axis's length and the call counter
advances once per station. -/
theorem density_go_spec (net : Nat → String → Except String Dataset) (df_index : List Int) :
    ∀ (roster : List (String × String)) (c : Nat)
      (cols : List (String × List (Option Int))) (c2 : Nat),
      density_go net df_index c roster = .ok (cols, c2) →
      (∀ p ∈ cols, p.2.length = df_index.length) ∧ c2 = c + roster.length := by
  intro roster
  induction roster with
  | nil =>
    intro c cols c2 h
    simp only [density_go] at h
    cases h
    exact ⟨by intro p hp; simp at hp, by simp⟩
  | cons kv rest ih =>
    intro c cols c2 h
    obtain ⟨key, value⟩ := kv
    simp only [density_go] at h
    cases hf : get_buoy_data (net c) value with
    | none => rw [hf] at h; cases h
    | some ds =>
      rw [hf] at h
      cases hrec : density_go net df_index (c + 1) rest with
      | error e => simp [hrec, Bind.bind, Except.bind] at h
      | ok pr =>
        obtain ⟨cols2, c3⟩ := pr
        simp only [hrec, Bind.bind, Except.bind] at h
        cases h
        obtain ⟨ihc, ihn⟩ := ih _ _ _ hrec
        refine ⟨?_, by simp only [List.length_cons]; omega⟩
        intro p hp
        cases hp with
        | head => exact reindex_nearest_length _ _ _ _
        | tail _ hp => exact ihc p hp

/-- Spec of make_density_plots on a successful run: the reference axis is
the first station's waveTime, all columns (full and recent) have their
axis's length, and the counter advances once per roster entry. -/
theorem make_density_plots_spec (net : Nat → String → Except String Dataset)
    (today : Int) (c : Nat) (key0 value0 : String) (rest : List (String × String))
    (ds0 : Dataset) (r : DensityResult) (c2 : Nat)
    (hf : get_buoy_data (net c) value0 = some ds0)
    (hwf : ds0.waveHs.length = ds0.waveTime.length)
    (h : make_density_plots net today c ((key0, value0) :: rest) = .ok (r, c2)) :
    r.df_index = ds0.waveTime ∧
    (∀ p ∈ r.columns, p.2.length = r.df_index.length) ∧
    (∀ p ∈ r.recent_columns, p.2.length = r.recent_index.length) ∧
    c2 = c + (rest.length + 1) := by
  simp only [make_density_plots] at h
  rw [hf] at h
  cases hrec : density_go net ds0.waveTime (c + 1) rest with
  | error e => simp [hrec, Bind.bind, Except.bind] at h
  | ok pr =>
    obtain ⟨cols, c3⟩ := pr
    simp only [hrec, Bind.bind, Except.bind] at h
    cases h
    obtain ⟨ihc, ihn⟩ := density_go_spec net ds0.waveTime rest _ _ _ hrec
    refine ⟨rfl, ?_, ?_, by omega⟩
    · intro p hp
      cases hp with
      | head => simp [hwf]
      | tail _ hp => exact ihc p hp
    · intro p hp
      obtain ⟨q, hq, rfl⟩ := List.mem_map.mp hp
      have hlen : q.2.length = ds0.waveTime.length := by
        rcases List.mem_cons.mp hq with rfl | hq2
        · simp [hwf]
        · exact ihc q hq2
      exact maskFilter_length_eq _ _ _ hlen

/-! ### Claim C6 -/

/-- C6: align always returns a sequence of exactly the reference axis's
length, for every input series including the empty one (whose positions are
all explicitly missing, not dropped), and on a successful density run every
stored column (full and 30-day-restricted) has exactly its reference
axis's length. -/
theorem C6_aligned_lengths :
    (∀ (old vals : List Int) (lim : Nat) (targets : List Int),
        (reindex_nearest old vals lim targets).length = targets.length) ∧
    (∀ (vals : List Int) (lim : Nat) (targets : List Int),
        reindex_nearest [] vals lim targets = targets.map (fun _ => none)) ∧
    (∀ (net : Nat → String → Except String Dataset) (today : Int) (c : Nat)
        (key0 value0 : String) (rest : List (String × String))
        (ds0 : Dataset) (r : DensityResult) (c2 : Nat),
        get_buoy_data (net c) value0 = some ds0 →
        ds0.waveHs.length = ds0.waveTime.length →
        make_density_plots net today c ((key0, value0) :: rest) = .ok (r, c2) →
        (∀ p ∈ r.columns, p.2.length = r.df_index.length) ∧
        (∀ p ∈ r.recent_columns, p.2.length = r.recent_index.length)) := by
  refine ⟨reindex_nearest_length, reindex_nearest_nil_src, ?_⟩
  intro net today c key0 value0 rest ds0 r c2 hf hwf h
  obtain ⟨_, h1, h2, _⟩ := make_density_plots_spec net today c key0 value0 rest ds0 r c2 hf hwf h
  exact ⟨h1, h2⟩

/-- Witness for C6 at a concrete two-station run. -/
theorem C6_aligned_lengths_witness :
    (("B", [some ((1640420 : Int)), some 1968504]) :
        String × List (Option Int)).2.length = ([(0 : Int), 1]).length := by
  have h := (C6_aligned_lengths.2.2 (fun _ _ => .ok ⟨[0, 1], [5, 6], [0], [0]⟩) 0 0
    "A" "001" [("B", "002")] ⟨[0, 1], [5, 6], [0], [0]⟩
    ⟨[0, 1], [("A", [some 1640420, some 1968504]), ("B", [some 1640420, some 1968504])],
      [0, 1], [("A", [some 1640420, some 1968504]), ("B", [some 1640420, some 1968504])]⟩
    2 rfl rfl rfl).1
  exact h ("B", [some 1640420, some 1968504]) (by simp)

/-! ### Claim C9 -/

/-- C9: get_buoy_data issues exactly one request per call, passes a
successful dataset through unchanged, and collapses every failure
(whatever its message) to the single Unavailable outcome (None) instead of
raising; its result is always either a dataset or None by type. -/
theorem C9_fetch_single_attempt :
    ∀ (net : String → Except String Dataset) (buoy_id : String),
      (get_buoy_data_requests buoy_id).length = 1 ∧
      (∀ ds, net (requestUrl buoy_id) = .ok ds → get_buoy_data net buoy_id = some ds) ∧
      (∀ e, net (requestUrl buoy_id) = .error e → get_buoy_data net buoy_id = none) := by
  intro net buoy_id
  refine ⟨rfl, ?_, ?_⟩ <;> intro x h <;> simp [get_buoy_data, h]

/-- Witness for C9: a timeout-like failure is collapsed to None. -/
theorem C9_fetch_single_attempt_witness :
    get_buoy_data (fun _ => .error "HTTPError 404") "168" = none :=
  (C9_fetch_single_attempt (fun _ => .error "HTTPError 404") "168").2.2 "HTTPError 404" rfl

/-! ### Claim C1 -/

/-- C1: evaluation of make_density_plots at the failing input — a roster
whose second station's fetch returns Unavailable.  Instead of recording
Offline and excluding the station, the builder subscripts the None dataset
and raises TypeError, aborting the whole density batch (the first station's
already-computed column is lost and no figure is produced). -/
theorem C1_density_batch_aborts_on_offline_station :
    make_density_plots
      (fun c _ => if c = 0 then .ok ⟨[0, 3600], [2, 3], [100], [200]⟩
                  else .error "ConnectionError")
      (30 * day) 0 [("Monterey Bay", "185"), ("Point Sur", "157")] =
      .error "TypeError: 'NoneType' object is not subscriptable" := by
  rfl

/-! ### Claim C2 -/

/-- C2 counterexample: a roster whose first station's fetch returns
Unavailable while the second station is Online.  The claimed deferral of
the reference axis to the first Online station (with retroactive
buffering) does not happen: the builder raises TypeError at the first
station and returns no result at all. -/
theorem C2_counterexample_no_deferred_axis :
    make_density_plots
      (fun c _ => if c = 0 then .error "ConnectionError"
                  else .ok ⟨[0, 3600], [2, 3], [100], [200]⟩)
      (30 * day) 0 [("Humboldt Bay", "168"), ("Cape Mendocino", "094")] =
      .error "TypeError: 'NoneType' object is not subscriptable" := by
  rfl

/-- C2 amended: the reference axis is taken unconditionally from the first
roster station — if its fetch returns Unavailable the builder raises
TypeError immediately (no deferral, no buffering, no result), and whenever
the run succeeds the reference axis is the first station's waveTime axis. -/
theorem C2_axis_always_first_roster_station :
    ∀ (net : Nat → String → Except String Dataset) (today : Int) (c : Nat)
      (key0 value0 : String) (rest : List (String × String)),
      (get_buoy_data (net c) value0 = none →
        make_density_plots net today c ((key0, value0) :: rest) =
          .error "TypeError: 'NoneType' object is not subscriptable") ∧
      (∀ ds0 r c2, get_buoy_data (net c) value0 = some ds0 →
        make_density_plots net today c ((key0, value0) :: rest) = .ok (r, c2) →
        r.df_index = ds0.waveTime) := by
  intro net today c key0 value0 rest
  constructor
  · intro hnone
    simp only [make_density_plots]
    rw [hnone]
  · intro ds0 r c2 hf h
    simp only [make_density_plots] at h
    rw [hf] at h
    cases hrec : density_go net ds0.waveTime (c + 1) rest with
    | error e => simp [hrec, Bind.bind, Except.bind] at h
    | ok pr =>
      obtain ⟨cols, c3⟩ := pr
      simp only [hrec, Bind.bind, Except.bind] at h
      cases h
      rfl

/-- Witness for C2 amended, at a one-station roster that succeeds. -/
theorem C2_axis_always_first_roster_station_witness :
    (⟨[5], [("A", [some 2296588])], [5], [("A", [some 2296588])]⟩ :
        DensityResult).df_index = ([5] : List Int) :=
  (C2_axis_always_first_roster_station (fun _ _ => .ok ⟨[5], [7], [1], [2]⟩) 0 0
      "A" "029" []).2 ⟨[5], [7], [1], [2]⟩
    ⟨[5], [("A", [some 2296588])], [5], [("A", [some 2296588])]⟩ 1 rfl rfl

/-! ### Claim C3 -/

/-- C3 counterexample: a dataset whose only wave-height sample lies outside
the 10-day lookback window.  The window slice is empty (and is produced
without raising), but the subsequent max-value computation in plot_buoy
with max_hs set raises (numpy max of a zero-size array) instead of
yielding a missing maximum. -/
theorem C3_counterexample_empty_window_max_raises :
    (sel_waveTime ⟨[0], [2], [], []⟩ (20 * day - 10 * day) (20 * day)).waveTime = [] ∧
    (sel_waveTime ⟨[0], [2], [], []⟩ (20 * day - 10 * day) (20 * day)).waveHs = [] ∧
    plot_buoy ⟨[0], [2], [], []⟩ (20 * day) true =
      .error "ValueShape: zero-size array to reduction operation maximum" := by
  refine ⟨by rfl, by rfl, by rfl⟩

/-- C3 amended: when the lookback interval holds zero samples the window
slice is an empty series (empty timestamps and values, produced without
raising), and the max-value computation over that empty series in
plot_buoy raises rather than yielding a missing maximum or zero. -/
theorem C3_empty_window_extract_empty_and_max_raises :
    ∀ (ds : Dataset) (now : Int),
      (sel_waveTime ds (now - 10 * day) now).waveTime = [] →
      (sel_waveTime ds (now - 10 * day) now).waveHs = [] ∧
      plot_buoy ds now true =
        .error "ValueShape: zero-size array to reduction operation maximum" := by
  intro ds now h
  have h2 : List.map (fun x => x.1) ((ds.waveTime.zip ds.waveHs).filter
      (fun p => decide (now - 10 * day ≤ p.1 ∧ p.1 ≤ now))) = [] := by
    simpa only [sel_waveTime] using h
  have hkeep := List.map_eq_nil_iff.mp h2
  have hhs : (sel_waveTime ds (now - 10 * day) now).waveHs = [] := by
    simp only [sel_waveTime, hkeep, List.map_nil]
  refine ⟨hhs, ?_⟩
  simp [plot_buoy, hhs, np_max]

/-- Witness for C3 amended at the counterexample dataset. -/
theorem C3_empty_window_witness :
    plot_buoy ⟨[0], [2], [], []⟩ (20 * day) true =
      .error "ValueShape: zero-size array to reduction operation maximum" :=
  (C3_empty_window_extract_empty_and_max_raises ⟨[0], [2], [], []⟩ (20 * day) (by rfl)).2

/-! ### Station locations -/

/-- Spec of get_station_locations: provided every Online dataset has at
least one GPS fix, the call succeeds, names come back in roster order, the
coordinate lists cover the roster, the counter advances once per entry,
and each coordinate entry is the last GPS fix (Online) or None (Offline). -/
theorem get_station_locations_spec (net : Nat → String → Except String Dataset) :
    ∀ (roster : List (String × String)) (c : Nat),
      (∀ j kv, roster.get? j = some kv → ∀ ds,
          get_buoy_data (net (c + j)) kv.2 = some ds → ds.gpsLat ≠ [] ∧ ds.gpsLon ≠ []) →
      ∃ ns las los c2,
        get_station_locations net c roster = .ok ((ns, las, los), c2) ∧
        ns = roster.map Prod.fst ∧
        las.length = roster.length ∧ los.length = roster.length ∧
        c2 = c + roster.length ∧
        (∀ j, las.get? j = (roster.get? j).map (fun kv =>
            (get_buoy_data (net (c + j)) kv.2).bind (fun ds => ds.gpsLat.getLast?))) ∧
        (∀ j, los.get? j = (roster.get? j).map (fun kv =>
            (get_buoy_data (net (c + j)) kv.2).bind (fun ds => ds.gpsLon.getLast?))) := by
  intro roster
  induction roster with
  | nil =>
    intro c _
    exact ⟨[], [], [], c, rfl, rfl, rfl, rfl, by simp, by simp, by simp⟩
  | cons kv rest ih =>
    obtain ⟨key, value⟩ := kv
    intro c hgps
    have hshift : ∀ j kv2, rest.get? j = some kv2 → ∀ ds,
        get_buoy_data (net (c + 1 + j)) kv2.2 = some ds →
        ds.gpsLat ≠ [] ∧ ds.gpsLon ≠ [] := by
      intro j kv2 hj ds hds
      refine hgps (j + 1) kv2 (by simpa using hj) ds ?_
      rw [show c + (j + 1) = c + 1 + j by omega]
      exact hds
    obtain ⟨ns, las, los, c2, hok, hns, hl1, hl2, hc, hlas, hlos⟩ := ih (c + 1) hshift
    cases hf : get_buoy_data (net c) value with
    | none =>
      refine ⟨key :: ns, none :: las, none :: los, c2, ?_, ?_, ?_, ?_, ?_, ?_, ?_⟩
      · simp only [get_station_locations, hf, hok, Bind.bind, Except.bind]
      · simp [hns]
      · simp [hl1]
      · simp [hl2]
      · simp [hc]; omega
      · intro j
        cases j with
        | zero => simp [hf]
        | succ j =>
          simp only [List.get?_cons_succ]
          rw [hlas j, show c + (j + 1) = c + 1 + j by omega]
      · intro j
        cases j with
        | zero => simp [hf]
        | succ j =>
          simp only [List.get?_cons_succ]
          rw [hlos j, show c + (j + 1) = c + 1 + j by omega]
    | some ds =>
      obtain ⟨hlat, hlon⟩ := hgps 0 (key, value) rfl ds (by simpa using hf)
      obtain ⟨x, hx⟩ := Option.isSome_iff_exists.mp (List.getLast?_isSome.mpr hlat)
      obtain ⟨y, hy⟩ := Option.isSome_iff_exists.mp (List.getLast?_isSome.mpr hlon)
      refine ⟨key :: ns, some x :: las, some y :: los, c2, ?_, ?_, ?_, ?_, ?_, ?_, ?_⟩
      · simp only [get_station_locations, hf, hok, isel_last, hx, hy,
          Bind.bind, Except.bind]
      · simp [hns]
      · simp [hl1]
      · simp [hl2]
      · simp [hc]; omega
      · intro j
        cases j with
        | zero => simp [hf, hx]
        | succ j =>
          simp only [List.get?_cons_succ]
          rw [hlas j, show c + (j + 1) = c + 1 + j by omega]
      · intro j
        cases j with
        | zero => simp [hf, hy]
        | succ j =>
          simp only [List.get?_cons_succ]
          rw [hlos j, show c + (j + 1) = c + 1 + j by omega]

/-! ### Claim C8 -/

/-- C8: every produced StationPosition carries the most recent GPS fix of
the station's dataset when the fetch succeeded, and None (missing, not an
origin default) when the fetch failed. -/
theorem C8_positions_from_last_gps_or_missing :
    ∀ (net : Nat → String → Except String Dataset) (c : Nat)
      (roster : List (String × String)),
      (∀ j kv, roster.get? j = some kv → ∀ ds,
          get_buoy_data (net (c + j)) kv.2 = some ds → ds.gpsLat ≠ [] ∧ ds.gpsLon ≠ []) →
      ∃ ns las los c2,
        get_station_locations net c roster = .ok ((ns, las, los), c2) ∧
        (∀ j, las.get? j = (roster.get? j).map (fun kv =>
            (get_buoy_data (net (c + j)) kv.2).bind (fun ds => ds.gpsLat.getLast?))) ∧
        (∀ j, los.get? j = (roster.get? j).map (fun kv =>
            (get_buoy_data (net (c + j)) kv.2).bind (fun ds => ds.gpsLon.getLast?))) := by
  intro net c roster hgps
  obtain ⟨ns, las, los, c2, hok, _, _, _, _, hlas, hlos⟩ :=
    get_station_locations_spec net roster c hgps
  exact ⟨ns, las, los, c2, hok, hlas, hlos⟩

/-- Witness for C8: a two-station roster — station A Online with last GPS
fix (37, -122), station B Offline — at which every hypothesis is
discharged concretely. -/
theorem C8_positions_witness :
    ∃ ns las los c2,
      get_station_locations
        (fun c _ => if c = 0 then Except.ok
            (⟨[0], [2], [30, 37], [-120, -122]⟩ : Dataset)
          else .error "ConnectionError") 0 [("A", "168"), ("B", "094")] =
        .ok ((ns, las, los), c2) ∧
      (∀ j, las.get? j = ([("A", "168"), ("B", "094")].get? j).map (fun kv =>
          (get_buoy_data
            ((fun c _ => if c = 0 then Except.ok
                (⟨[0], [2], [30, 37], [-120, -122]⟩ : Dataset)
              else .error "ConnectionError") (0 + j)) kv.2).bind
            (fun ds => ds.gpsLat.getLast?))) ∧
      (∀ j, los.get? j = ([("A", "168"), ("B", "094")].get? j).map (fun kv =>
          (get_buoy_data
            ((fun c _ => if c = 0 then Except.ok
                (⟨[0], [2], [30, 37], [-120, -122]⟩ : Dataset)
              else .error "ConnectionError") (0 + j)) kv.2).bind
            (fun ds => ds.gpsLon.getLast?))) :=
  C8_positions_from_last_gps_or_missing
    (fun c _ => if c = 0 then Except.ok
        (⟨[0], [2], [30, 37], [-120, -122]⟩ : Dataset)
      else .error "ConnectionError") 0 [("A", "168"), ("B", "094")]
    (by
      intro j kv hj ds hds
      match j, hj with
      | 0, hj =>
        cases hj
        have hds2 : some (⟨[0], [2], [30, 37], [-120, -122]⟩ : Dataset) = some ds := hds
        cases hds2
        exact ⟨by simp, by simp⟩
      | 1, hj =>
        cases hj
        exact absurd hds (by simp [get_buoy_data]))

/-! ### Timeseries panels -/

/-- When the 10-day window has at least one sample and its converted
maximum is not the falsy 0.0, plot_buoy with max_hs succeeds with its
3-tuple shape, returning the last-day slice and the converted maximum. -/
theorem plot_buoy_ok_of_window_nonempty (ds : Dataset) (now : Int)
    (h : (sel_waveTime ds (now - 10 * day) now).waveHs ≠ [])
    (hz : ∀ m, np_max ((sel_waveTime ds (now - 10 * day) now).waveHs) = .ok m →
      m_to_ft_plot m ≠ 0) :
    ∃ m, plot_buoy ds now true =
      .ok (sel_waveTime ds (now - 1 * day) now, some (m_to_ft_plot m)) := by
  cases hw : (sel_waveTime ds (now - 10 * day) now).waveHs with
  | nil => exact absurd hw h
  | cons x xs =>
    refine ⟨xs.foldl max x, ?_⟩
    have hz2 : ¬ (m_to_ft_plot (xs.foldl max x) = 0) := hz _ (by rw [hw]; rfl)
    simp [plot_buoy, hw, np_max, hz2]

/-- Spec of make_timeseries_plots: provided plot_buoy succeeds on every
Online dataset (nonempty 10-day window), the figure is built with one
panel per roster entry in roster order, the counter advances once per
entry, and a panel is the Offline placeholder exactly when that
station's fetch returned None. -/
theorem make_timeseries_plots_spec (net : Nat → String → Except String Dataset)
    (now : Int) :
    ∀ (roster : List (String × String)) (c i : Nat),
      (∀ j kv, roster.get? j = some kv → ∀ ds,
          get_buoy_data (net (c + j)) kv.2 = some ds →
          (sel_waveTime ds (now - 10 * day) now).waveHs ≠ [] ∧
          ∀ m, np_max ((sel_waveTime ds (now - 10 * day) now).waveHs) = .ok m →
            m_to_ft_plot m ≠ 0) →
      ∃ ps c2,
        make_timeseries_plots net now c i roster = .ok (ps, c2) ∧
        ps.map Panel.name = roster.map Prod.fst ∧
        c2 = c + roster.length ∧
        (∀ j, (ps.get? j).map Panel.isOffline =
          (roster.get? j).map (fun kv => (get_buoy_data (net (c + j)) kv.2).isNone)) := by
  intro roster
  induction roster with
  | nil =>
    intro c i _
    exact ⟨[], c, rfl, rfl, by simp, by simp⟩
  | cons kv rest ih =>
    obtain ⟨key, value⟩ := kv
    intro c i hwin
    have hshift : ∀ j kv2, rest.get? j = some kv2 → ∀ ds,
        get_buoy_data (net (c + 1 + j)) kv2.2 = some ds →
        (sel_waveTime ds (now - 10 * day) now).waveHs ≠ [] ∧
        ∀ m, np_max ((sel_waveTime ds (now - 10 * day) now).waveHs) = .ok m →
          m_to_ft_plot m ≠ 0 := by
      intro j kv2 hj ds hds
      refine hwin (j + 1) kv2 (by simpa using hj) ds ?_
      rw [show c + (j + 1) = c + 1 + j by omega]
      exact hds
    obtain ⟨ps, c2, hok, hname, hc, hoff⟩ := ih (c + 1) (i + 1) hshift
    cases hf : get_buoy_data (net c) value with
    | none =>
      refine ⟨.offline key value :: ps, c2, ?_, ?_, ?_, ?_⟩
      · simp only [make_timeseries_plots, hf, hok, Bind.bind, Except.bind]
      · simp [hname, Panel.name]
      · simp [hc]; omega
      · intro j
        cases j with
        | zero => simp [hf, Panel.isOffline]
        | succ j =>
          simp only [List.get?_cons_succ]
          rw [hoff j, show c + (j + 1) = c + 1 + j by omega]
    | some ds =>
      have hw := hwin 0 (key, value) rfl ds (by simpa using hf)
      obtain ⟨m, hm⟩ := plot_buoy_ok_of_window_nonempty ds now hw.1 hw.2
      refine ⟨.online key (sel_waveTime ds (now - 1 * day) now)
        (some (m_to_ft_plot m)) i :: ps, c2, ?_, ?_, ?_, ?_⟩
      · simp only [make_timeseries_plots, hf, hm, hok, Bind.bind, Except.bind]
      · simp [hname, Panel.name]
      · simp [hc]; omega
      · intro j
        cases j with
        | zero => simp [hf, Panel.isOffline]
        | succ j =>
          simp only [List.get?_cons_succ]
          rw [hoff j, show c + (j + 1) = c + 1 + j by omega]

/-! ### Claim C7 -/

/-- C7: under per-dataset well-formedness (every Online dataset has a
nonempty 10-day window whose converted maximum is nonzero, so plot_buoy
returns its 3-tuple shape rather than the 2-tuple that would break the
unpack; and Online datasets have a GPS fix), both per-station outputs cover
every roster entry exactly once in roster order: the panel list has one
panel per station in order whose Offline flag mirrors that station's own
fetch outcome, and the positions output lists every station name in
roster order with full-length coordinate lists. -/
theorem C7_outputs_cover_roster_in_order :
    ∀ (net : Nat → String → Except String Dataset) (now : Int)
      (c i cl : Nat) (roster : List (String × String)),
      (∀ j kv, roster.get? j = some kv → ∀ ds,
          get_buoy_data (net (c + j)) kv.2 = some ds →
          (sel_waveTime ds (now - 10 * day) now).waveHs ≠ [] ∧
          ∀ m, np_max ((sel_waveTime ds (now - 10 * day) now).waveHs) = .ok m →
            m_to_ft_plot m ≠ 0) →
      (∀ j kv, roster.get? j = some kv → ∀ ds,
          get_buoy_data (net (cl + j)) kv.2 = some ds →
          ds.gpsLat ≠ [] ∧ ds.gpsLon ≠ []) →
      (∃ ps c2,
        make_timeseries_plots net now c i roster = .ok (ps, c2) ∧
        ps.length = roster.length ∧
        ps.map Panel.name = roster.map Prod.fst ∧
        (∀ j, (ps.get? j).map Panel.isOffline =
          (roster.get? j).map (fun kv => (get_buoy_data (net (c + j)) kv.2).isNone))) ∧
      (∃ ns las los c2,
        get_station_locations net cl roster = .ok ((ns, las, los), c2) ∧
        ns = roster.map Prod.fst ∧
        las.length = roster.length ∧ los.length = roster.length) := by
  intro net now c i cl roster hwin hgps
  constructor
  · obtain ⟨ps, c2, hok, hname, _, hoff⟩ :=
      make_timeseries_plots_spec net now roster c i hwin
    refine ⟨ps, c2, hok, ?_, hname, hoff⟩
    have := congrArg List.length hname
    simpa using this
  · obtain ⟨ns, las, los, c2, hok, hns, hl1, hl2, _, _, _⟩ :=
      get_station_locations_spec net roster cl hgps
    exact ⟨ns, las, los, c2, hok, hns, hl1, hl2⟩

/-- Witness for C7: a two-station roster, first Online with data inside
both windows and a GPS fix, second Offline; both builders cover both
stations. -/
theorem C7_outputs_witness :
    (∃ ps c2,
      make_timeseries_plots
        (fun c _ => if c % 2 = 0 then Except.ok
            (⟨[1641600], [3], [7], [9]⟩ : Dataset)
          else .error "ConnectionError") (20 * day) 0 0
        [("A", "168"), ("B", "094")] = .ok (ps, c2) ∧
      ps.length = [("A", "168"), ("B", "094")].length ∧
      ps.map Panel.name = [("A", "168"), ("B", "094")].map Prod.fst ∧
      (∀ j, (ps.get? j).map Panel.isOffline =
        ([("A", "168"), ("B", "094")].get? j).map (fun kv =>
          (get_buoy_data
            ((fun c _ => if c % 2 = 0 then Except.ok
                (⟨[1641600], [3], [7], [9]⟩ : Dataset)
              else .error "ConnectionError") (0 + j)) kv.2).isNone))) ∧
    (∃ ns las los c2,
      get_station_locations
        (fun c _ => if c % 2 = 0 then Except.ok
            (⟨[1641600], [3], [7], [9]⟩ : Dataset)
          else .error "ConnectionError") 2
        [("A", "168"), ("B", "094")] = .ok ((ns, las, los), c2) ∧
      ns = [("A", "168"), ("B", "094")].map Prod.fst ∧
      las.length = [("A", "168"), ("B", "094")].length ∧
      los.length = [("A", "168"), ("B", "094")].length) :=
  C7_outputs_cover_roster_in_order
    (fun c _ => if c % 2 = 0 then Except.ok
        (⟨[1641600], [3], [7], [9]⟩ : Dataset)
      else .error "ConnectionError") (20 * day) 0 0 2 [("A", "168"), ("B", "094")]
    (by
      intro j kv hj ds hds
      match j, hj with
      | 0, hj =>
        cases hj
        have hds2 : some (⟨[1641600], [3], [7], [9]⟩ : Dataset) = some ds := hds
        cases hds2
        have hw3 : (sel_waveTime (⟨[1641600], [3], [7], [9]⟩ : Dataset)
            (20 * day - 10 * day) (20 * day)).waveHs = [3] := by decide
        constructor
        · intro hempty
          rw [hw3] at hempty
          cases hempty
        · intro m hm
          rw [hw3] at hm
          have hm2 : Except.ok (3 : Int) = .ok m := hm
          cases hm2
          decide
      | 1, hj =>
        cases hj
        exact absurd hds (by simp [get_buoy_data]))
    (by
      intro j kv hj ds hds
      match j, hj with
      | 0, hj =>
        cases hj
        have hds2 : some (⟨[1641600], [3], [7], [9]⟩ : Dataset) = some ds := hds
        cases hds2
        exact ⟨by simp, by simp⟩
      | 1, hj =>
        cases hj
        exact absurd hds (by simp [get_buoy_data]))

/-! ### Fetch counting across the three builders -/

theorem make_timeseries_plots_count (net : Nat → String → Except String Dataset)
    (now : Int) :
    ∀ (roster : List (String × String)) (c i : Nat) (ps : List Panel) (c2 : Nat),
      make_timeseries_plots net now c i roster = .ok (ps, c2) →
      c2 = c + roster.length := by
  intro roster
  induction roster with
  | nil =>
    intro c i ps c2 h
    cases h
    simp
  | cons kv rest ih =>
    obtain ⟨key, value⟩ := kv
    intro c i ps c2 h
    simp only [make_timeseries_plots] at h
    cases hf : get_buoy_data (net c) value with
    | none =>
      rw [hf] at h
      cases hrec : make_timeseries_plots net now (c + 1) (i + 1) rest with
      | error e => simp [hrec, Bind.bind, Except.bind] at h
      | ok pr =>
        obtain ⟨ps2, c3⟩ := pr
        simp only [hrec, Bind.bind, Except.bind] at h
        cases h
        have := ih _ _ _ _ hrec
        simp only [List.length_cons]
        omega
    | some ds =>
      rw [hf] at h
      cases hp : plot_buoy ds now true with
      | error e => simp [hp] at h
      | ok pr =>
        obtain ⟨lm, m⟩ := pr
        cases m with
        | none => simp [hp] at h
        | some mv =>
          simp only [hp] at h
          cases hrec : make_timeseries_plots net now (c + 1) (i + 1) rest with
          | error e => simp [hrec, Bind.bind, Except.bind] at h
          | ok pr2 =>
            obtain ⟨ps2, c3⟩ := pr2
            simp only [hrec, Bind.bind, Except.bind] at h
            cases h
            have := ih _ _ _ _ hrec
            simp only [List.length_cons]
            omega

theorem get_station_locations_count (net : Nat → String → Except String Dataset) :
    ∀ (roster : List (String × String)) (c : Nat)
      (out : List String × List (Option Int) × List (Option Int)) (c2 : Nat),
      get_station_locations net c roster = .ok (out, c2) →
      c2 = c + roster.length := by
  intro roster
  induction roster with
  | nil =>
    intro c out c2 h
    cases h
    simp
  | cons kv rest ih =>
    obtain ⟨key, value⟩ := kv
    intro c out c2 h
    simp only [get_station_locations] at h
    cases hf : get_buoy_data (net c) value with
    | none =>
      rw [hf] at h
      cases hrec : get_station_locations net (c + 1) rest with
      | error e => simp [hrec, Bind.bind, Except.bind] at h
      | ok pr =>
        obtain ⟨⟨ns, las, los⟩, c3⟩ := pr
        simp only [hrec, Bind.bind, Except.bind] at h
        cases h
        have := ih _ _ _ hrec
        simp only [List.length_cons]
        omega
    | some ds =>
      rw [hf] at h
      cases hlat : isel_last ds.gpsLat with
      | error e => simp [hlat, Bind.bind, Except.bind] at h
      | ok lat =>
        cases hlon : isel_last ds.gpsLon with
        | error e => simp [hlat, hlon, Bind.bind, Except.bind] at h
        | ok lon =>
          simp only [hlat, hlon, Bind.bind, Except.bind] at h
          cases hrec : get_station_locations net (c + 1) rest with
          | error e => simp [hrec, Bind.bind, Except.bind] at h
          | ok pr =>
            obtain ⟨⟨ns, las, los⟩, c3⟩ := pr
            simp only [hrec, Bind.bind, Except.bind] at h
            cases h
            have := ih _ _ _ hrec
            simp only [List.length_cons]
            omega

theorem make_density_plots_count (net : Nat → String → Except String Dataset)
    (today : Int) :
    ∀ (roster : List (String × String)) (c : Nat) (r : DensityResult) (c2 : Nat),
      make_density_plots net today c roster = .ok (r, c2) →
      c2 = c + roster.length := by
  intro roster
  cases roster with
  | nil => intro c r c2 h; cases h
  | cons kv rest =>
    obtain ⟨key, value⟩ := kv
    intro c r c2 h
    simp only [make_density_plots] at h
    cases hf : get_buoy_data (net c) value with
    | none => rw [hf] at h; cases h
    | some ds =>
      rw [hf] at h
      cases hrec : density_go net ds.waveTime (c + 1) rest with
      | error e => simp [hrec, Bind.bind, Except.bind] at h
      | ok pr =>
        obtain ⟨cols, c3⟩ := pr
        simp only [hrec, Bind.bind, Except.bind] at h
        cases h
        have := (density_go_spec net ds.waveTime rest _ _ _ hrec).2
        simp only [List.length_cons]
        omega

/-! ### Claim C10 -/

/-- C10: each of the three builders performs its own fetch for every
roster entry — a completed run consumes exactly three oracle calls per
station, with no dataset or status shared between builders — and at a
concrete run whose oracle fails only on the second call, the single
station is Online in the time-series output (a real panel) while the map
positions output simultaneously records it with missing coordinates
(Offline), within one run. -/
theorem C10_three_independent_fetches_per_station :
    (∀ (net : Nat → String → Except String Dataset)
        (roster : List (String × String)) (now : Int)
        (out : List Panel ×
          (List String × List (Option Int) × List (Option Int)) × DensityResult)
        (c3 : Nat),
        main_run net roster now = .ok (out, c3) → c3 = 3 * roster.length) ∧
    (main_run
        (fun c _ => if c = 1 then .error "ConnectionError"
          else .ok (⟨[1645200], [4], [10], [20]⟩ : Dataset))
        [("Point Reyes", "029")] (20 * day) =
      .ok ((([.online "Point Reyes" ⟨[1645200], [4], [10], [20]⟩ (some 13) 0],
            (["Point Reyes"], [none], [none]),
            ⟨[1645200], [("Point Reyes", [some 1312336])],
              [1645200], [("Point Reyes", [some 1312336])]⟩), 3)) ∧
      Panel.isOffline (.online "Point Reyes" ⟨[1645200], [4], [10], [20]⟩ (some 13) 0)
        = false) := by
  constructor
  · intro net roster now out c3 h
    obtain ⟨panels, locs, dens⟩ := out
    simp only [main_run] at h
    cases h1 : make_timeseries_plots net now 0 0 roster with
    | error e => simp [h1, Bind.bind, Except.bind] at h
    | ok pr1 =>
      obtain ⟨ps, ca⟩ := pr1
      simp only [h1, Bind.bind, Except.bind] at h
      cases h2 : get_station_locations net ca roster with
      | error e => simp [h2, Bind.bind, Except.bind] at h
      | ok pr2 =>
        obtain ⟨ls, cb⟩ := pr2
        simp only [h2, Bind.bind, Except.bind] at h
        cases h3 : make_density_plots net now cb roster with
        | error e => simp [h3, Bind.bind, Except.bind] at h
        | ok pr3 =>
          obtain ⟨dn, cc⟩ := pr3
          simp only [h3, Bind.bind, Except.bind] at h
          cases h
          have e1 := make_timeseries_plots_count net now roster 0 0 _ _ h1
          have e2 := get_station_locations_count net roster _ _ _ h2
          have e3 := make_density_plots_count net now roster _ _ _ h3
          omega
  · exact ⟨by rfl, rfl⟩

/-- Witness for C10: the counting half applied to the concrete run of the
divergence half. -/
theorem C10_three_independent_fetches_witness :
    (3 : Nat) = 3 * ([("Point Reyes", "029")] : List (String × String)).length :=
  C10_three_independent_fetches_per_station.1
    (fun c _ => if c = 1 then .error "ConnectionError"
      else .ok (⟨[1645200], [4], [10], [20]⟩ : Dataset))
    [("Point Reyes", "029")] (20 * day)
    ([.online "Point Reyes" ⟨[1645200], [4], [10], [20]⟩ (some 13) 0],
      (["Point Reyes"], [none], [none]),
      ⟨[1645200], [("Point Reyes", [some 1312336])],
        [1645200], [("Point Reyes", [some 1312336])]⟩) 3 (by rfl)

/-! ### Sorted-list counting lemmas for the alignment analysis -/

theorem countP_zero_of_head_fails (p : Int → Bool)
    (hmono : ∀ x y : Int, x ≤ y → p y = true → p x = true)
    (a : Int) (l : List Int) (ha : ∀ b ∈ l, a ≤ b) (hp : p a = false) :
    l.countP p = 0 := by
  rw [List.countP_eq_zero]
  intro b hb hpb
  have := hmono a b (ha b hb) hpb
  rw [hp] at this
  simp at this

theorem length_takeWhile_eq_countP (p : Int → Bool)
    (hmono : ∀ x y : Int, x ≤ y → p y = true → p x = true) :
    ∀ (l : List Int), l.Sorted (· ≤ ·) → (l.takeWhile p).length = l.countP p := by
  intro l
  induction l with
  | nil => intro _; rfl
  | cons a l ih =>
    intro hs
    rw [List.sorted_cons] at hs
    cases hp : p a with
    | true => simp [List.takeWhile_cons, hp, List.countP_cons, ih hs.2]
    | false =>
      simp [List.takeWhile_cons, hp, List.countP_cons,
        countP_zero_of_head_fails p hmono a l hs.1 hp]

theorem sorted_get_countP_iff (p : Int → Bool)
    (hmono : ∀ x y : Int, x ≤ y → p y = true → p x = true) :
    ∀ (l : List Int), l.Sorted (· ≤ ·) → ∀ (j : Nat) (hj : j < l.length),
      (p (l.get ⟨j, hj⟩) = true ↔ j < l.countP p) := by
  intro l
  induction l with
  | nil => intro _ j hj; simp at hj
  | cons a l ih =>
    intro hs j hj
    rw [List.sorted_cons] at hs
    cases j with
    | zero =>
      cases hp : p a with
      | true => simp [List.countP_cons, hp]
      | false =>
        simp [List.countP_cons, hp,
          countP_zero_of_head_fails p hmono a l hs.1 hp]
    | succ j =>
      have hj2 : j < l.length := by simpa using hj
      have hiff := ih hs.2 j hj2
      cases hp : p a with
      | true =>
        simp only [List.get_cons_succ, List.countP_cons, hp, if_true]
        rw [hiff]
        omega
      | false =>
        have hz := countP_zero_of_head_fails p hmono a l hs.1 hp
        have hfail : ¬ p (l.get ⟨j, hj2⟩) = true :=
          List.countP_eq_zero.mp hz _ (List.get_mem l j hj2)
        have hfail2 : p l[j] = false := by simpa using hfail
        simp [List.countP_cons, hp, hz, hfail2]

theorem length_takeWhile_le_of_imp {p q : Int → Bool}
    (h : ∀ x, p x = true → q x = true) :
    ∀ (l : List Int), (l.takeWhile p).length ≤ (l.takeWhile q).length := by
  intro l
  induction l with
  | nil => simp
  | cons a l ih =>
    cases hp : p a with
    | false => simp [List.takeWhile_cons, hp]
    | true => simp [List.takeWhile_cons, hp, h a hp, ih]

theorem lastLE_lt_length (old : List Int) (t : Int) (i : Nat)
    (h : lastLE old t = some i) : i < old.length := by
  have hle : (old.takeWhile (fun x => decide (x ≤ t))).length ≤ old.length :=
    (List.takeWhile_sublist _).length_le
  simp only [lastLE] at h
  split at h
  · exact absurd h (by simp)
  · rename_i hn
    cases h
    omega

theorem lastLE_mono (old : List Int) {t t2 : Int} (h : t ≤ t2) (i : Nat)
    (hi : lastLE old t = some i) :
    ∃ i2, i ≤ i2 ∧ lastLE old t2 = some i2 := by
  have hmono := length_takeWhile_le_of_imp
    (p := fun x => decide (x ≤ t)) (q := fun x => decide (x ≤ t2))
    (fun x hx => by simp at hx ⊢; omega) old
  simp only [lastLE] at hi ⊢
  split at hi
  · exact absurd hi (by simp)
  · rename_i hn
    cases hi
    refine ⟨(old.takeWhile (fun x => decide (x ≤ t2))).length - 1, by omega, ?_⟩
    rw [if_neg (by omega)]

theorem countP_eq_val_le_one (v : Int) :
    ∀ (l : List Int), l.Sorted (· < ·) → l.countP (fun t => v = t) ≤ 1 := by
  intro l
  induction l with
  | nil => simp
  | cons a l ih =>
    intro hs
    rw [List.sorted_cons] at hs
    by_cases hv : v = a
    · subst hv
      have hz : l.countP (fun t => v = t) = 0 := by
        rw [List.countP_eq_zero]
        intro b hb hpb
        have h1 := hs.1 b hb
        have h2 : v = b := by simpa using hpb
        omega
      simp [List.countP_cons, hz]
    · have := ih hs.2
      simp only [List.countP_cons]
      rw [if_neg (by simpa using hv)]
      omega

theorem padGo_mem_lt (old : List Int) (lim : Nat) :
    ∀ (ts : List Int) (cur : Option Nat) (fc : Nat) (m : Nat),
      some m ∈ padGo old lim cur fc ts → m < old.length := by
  intro ts
  induction ts with
  | nil => intro cur fc m h; cases h
  | cons t ts ih =>
    intro cur fc m h
    cases hL : lastLE old t with
    | none =>
      simp only [padGo, hL] at h
      rcases List.mem_cons.mp h with h1 | h1
      · cases h1
      · exact ih _ _ _ h1
    | some m2 =>
      simp only [padGo, hL] at h
      generalize (if cur = some m2 then fc else 0) = fc2 at h
      split at h
      · rcases List.mem_cons.mp h with h1 | h1
        · cases h1; exact lastLE_lt_length old t _ hL
        · exact ih _ _ _ h1
      · split at h
        · rcases List.mem_cons.mp h with h1 | h1
          · cases h1; exact lastLE_lt_length old t _ hL
          · exact ih _ _ _ h1
        · rcases List.mem_cons.mp h with h1 | h1
          · cases h1
          · exact ih _ _ _ h1

theorem padGo_countP_zero (old : List Int) (lim : Nat) (i : Nat) :
    ∀ (ts : List Int) (cur : Option Nat) (fc : Nat),
      (∀ t ∈ ts, ∀ m, lastLE old t = some m → i < m) →
      (padGo old lim cur fc ts).countP (fun oi => oi = some i) = 0 := by
  intro ts
  induction ts with
  | nil => intro cur fc _; rfl
  | cons t ts ih =>
    intro cur fc hall
    have htail : ∀ u ∈ ts, ∀ m, lastLE old u = some m → i < m :=
      fun u hu => hall u (List.mem_cons_of_mem _ hu)
    cases hL : lastLE old t with
    | none =>
      simp only [padGo, hL]
      simp [List.countP_cons, ih _ _ htail]
    | some m =>
      have him : i < m := hall t (List.mem_cons_self _ _) m hL
      have hne : ¬ ((some m : Option Nat) = some i) := by simp; omega
      simp only [padGo, hL]
      generalize (if cur = some m then fc else 0) = fc2
      split
      · simp [List.countP_cons, ih _ _ htail, hne]
      · split
        · simp [List.countP_cons, ih _ _ htail, hne]
        · simp [List.countP_cons, ih _ _ htail]

/-- Core forward-fill bound: within one pass, positions assigned source
index i number at most the exact matches on t = old[i] plus the span's
remaining fill budget. -/
theorem padGo_countP_le (old : List Int) (lim : Nat) (i : Nat) :
    ∀ (ts : List Int) (cur : Option Nat) (fc : Nat),
      ts.Sorted (· ≤ ·) →
      (∀ c0, cur = some c0 → ∀ t ∈ ts, ∀ m, lastLE old t = some m → c0 ≤ m) →
      (padGo old lim cur fc ts).countP (fun oi => oi = some i) ≤
        ts.countP (fun t => old.getD i 0 = t) +
        (if cur = some i then lim - fc else lim) := by
  intro ts
  induction ts with
  | nil => intro cur fc _ _; simp [padGo]
  | cons t ts ih =>
    intro cur fc hs hcur
    rw [List.sorted_cons] at hs
    obtain ⟨hhead, hstail⟩ := hs
    cases hL : lastLE old t with
    | none =>
      have hcur2 : ∀ c0, cur = some c0 → ∀ u ∈ ts, ∀ m, lastLE old u = some m → c0 ≤ m :=
        fun c0 hc u hu => hcur c0 hc u (List.mem_cons_of_mem _ hu)
      have hrec := ih cur fc hstail hcur2
      simp only [padGo, hL]
      by_cases hq : old.getD i 0 = t <;>
        simp [hq, List.countP_cons] at hrec ⊢ <;> omega
    | some m =>
      have hcurm : ∀ c0, (some m : Option Nat) = some c0 →
          ∀ u ∈ ts, ∀ m2, lastLE old u = some m2 → c0 ≤ m2 := by
        intro c0 hc u hu m2 hm2
        cases hc
        obtain ⟨m3, hm3le, hm3⟩ := lastLE_mono old (hhead u hu) m hL
        rw [hm2] at hm3
        cases hm3
        omega
      simp only [padGo, hL]
      by_cases hmi : m = i
      · subst hmi
        have hrecB : ∀ fc3, (padGo old lim (some m) fc3 ts).countP (fun oi => oi = some m) ≤
            ts.countP (fun t2 => old.getD m 0 = t2) + (lim - fc3) := by
          intro fc3
          have h := ih (some m) fc3 hstail hcurm
          rwa [if_pos rfl] at h
        by_cases hc : cur = some m
        · subst hc
          have e1 : (if (some m : Option Nat) = some m then fc else 0) = fc := if_pos rfl
          have e2 : (if (some m : Option Nat) = some m then lim - fc else lim) = lim - fc :=
            if_pos rfl
          rw [e1, e2]
          split
          · rename_i he
            have h1 := hrecB fc
            simp at he
            simp [List.countP_cons, he] at h1 ⊢
            omega
          · rename_i he
            split
            · rename_i hf
              have h1 := hrecB (fc + 1)
              simp at he
              simp [List.countP_cons, he] at h1 ⊢
              omega
            · rename_i hf
              have h1 := hrecB fc
              simp at he
              simp [List.countP_cons, he] at h1 ⊢
              omega
        · have e1 : (if cur = some m then fc else 0) = 0 := if_neg hc
          have e2 : (if cur = some m then lim - fc else lim) = lim := if_neg hc
          rw [e1, e2]
          split
          · rename_i he
            have h1 := hrecB 0
            simp at he
            simp [List.countP_cons, he] at h1 ⊢
            omega
          · rename_i he
            split
            · rename_i hf
              have h1 := hrecB 1
              simp at he
              simp [List.countP_cons, he] at h1 ⊢
              omega
            · rename_i hf
              have h1 := hrecB 0
              simp at he
              simp [List.countP_cons, he] at h1 ⊢
              omega
      · rcases Nat.lt_or_ge i m with him | him
        · have hall2 : ∀ u ∈ ts, ∀ m2, lastLE old u = some m2 → i < m2 :=
            fun u hu m2 h2 => lt_of_lt_of_le him (hcurm m rfl u hu m2 h2)
          have hzero : ∀ fc3,
              (padGo old lim (some m) fc3 ts).countP (fun oi => oi = some i) = 0 :=
            fun fc3 => padGo_countP_zero old lim i ts (some m) fc3 hall2
          have hbitm : (decide ((some m : Option Nat) = some i)) = false := by
            simp
            omega
          generalize (if cur = some m then fc else 0) = fc2
          split
          · simp [List.countP_cons, hmi, hzero fc2]
          · split
            · simp [List.countP_cons, hmi, hzero (fc2 + 1)]
            · simp [List.countP_cons, hzero fc2]
        · have him2 : m < i := by omega
          have hci : ¬ (cur = some i) := by
            intro hcc
            have := hcur i hcc t (List.mem_cons_self _ _) m hL
            omega
          have e2 : (if cur = some i then lim - fc else lim) = lim := if_neg hci
          rw [e2]
          have hrecC : ∀ fc3, (padGo old lim (some m) fc3 ts).countP (fun oi => oi = some i) ≤
              ts.countP (fun t2 => old.getD i 0 = t2) + lim := by
            intro fc3
            have h := ih (some m) fc3 hstail hcurm
            rwa [if_neg (by simp; omega)] at h
          have hCle : ts.countP (fun t2 => old.getD i 0 = t2) ≤
              (t :: ts).countP (fun t2 => old.getD i 0 = t2) := by
            rw [List.countP_cons]
            exact Nat.le_add_right _ _
          have hbitm : (decide ((some m : Option Nat) = some i)) = false := by
            simp
            omega
          generalize (if cur = some m then fc else 0) = fc2
          split
          · calc (some m :: padGo old lim (some m) fc2 ts).countP (fun oi => oi = some i)
                = (padGo old lim (some m) fc2 ts).countP (fun oi => oi = some i) := by
                  simp [List.countP_cons, hmi]
              _ ≤ ts.countP (fun t2 => old.getD i 0 = t2) + lim := hrecC fc2
              _ ≤ (t :: ts).countP (fun t2 => old.getD i 0 = t2) + lim :=
                  Nat.add_le_add_right hCle lim
          · split
            · calc (some m :: padGo old lim (some m) (fc2 + 1) ts).countP
                    (fun oi => oi = some i)
                  = (padGo old lim (some m) (fc2 + 1) ts).countP (fun oi => oi = some i) := by
                    simp [List.countP_cons, hmi]
                _ ≤ ts.countP (fun t2 => old.getD i 0 = t2) + lim := hrecC (fc2 + 1)
                _ ≤ (t :: ts).countP (fun t2 => old.getD i 0 = t2) + lim :=
                    Nat.add_le_add_right hCle lim
            · calc (none :: padGo old lim (some m) fc2 ts).countP (fun oi => oi = some i)
                  = (padGo old lim (some m) fc2 ts).countP (fun oi => oi = some i) := by
                    simp [List.countP_cons]
                _ ≤ ts.countP (fun t2 => old.getD i 0 = t2) + lim := hrecC fc2
                _ ≤ (t :: ts).countP (fun t2 => old.getD i 0 = t2) + lim :=
                    Nat.add_le_add_right hCle lim

theorem padRun_countP_le (old : List Int) (lim : Nat) (i : Nat)
    (targets : List Int) (hs : targets.Sorted (· < ·)) :
    (padRun old lim targets).countP (fun oi => oi = some i) ≤ lim + 1 := by
  have hle : targets.Sorted (· ≤ ·) := hs.imp (fun h => le_of_lt h)
  have h1 := padGo_countP_le old lim i targets none 0 hle (by intro c0 hc; cases hc)
  have h2 := countP_eq_val_le_one (old.getD i 0) targets hs
  rw [if_neg (by simp)] at h1
  simp only [padRun]
  omega

theorem backfillRun_countP_le (old : List Int) (lim : Nat) (i : Nat)
    (targets : List Int) (hs : targets.Sorted (· < ·)) :
    (backfillRun old lim targets).countP (fun oi => oi = some i) ≤ lim + 1 := by
  have hrev : List.Pairwise (fun a b : Int => b < a) targets.reverse :=
    List.pairwise_reverse.mpr hs
  have hs2 : (targets.reverse.map (fun x : Int => -x)).Sorted (· < ·) :=
    List.Pairwise.map _ (fun h => by omega) hrev
  have hpad := padRun_countP_le (old.reverse.map (fun x => -x)) lim
    (old.length - 1 - i) (targets.reverse.map (fun x => -x)) hs2
  have hmono : (((padRun (old.reverse.map (fun x => -x)) lim
        (targets.reverse.map (fun x => -x))).reverse).map
        (Option.map (fun j => old.length - 1 - j))).countP (fun oi => oi = some i) ≤
      (padRun (old.reverse.map (fun x => -x)) lim
        (targets.reverse.map (fun x => -x))).countP
        (fun oi => oi = some (old.length - 1 - i)) := by
    rw [List.countP_map, List.countP_reverse]
    apply List.countP_mono_left
    intro oi hmem hp
    cases oi with
    | none => simp at hp
    | some m =>
      have hm : m < (old.reverse.map (fun x : Int => -x)).length :=
        padGo_mem_lt _ lim _ _ _ _ hmem
      simp only [List.length_map, List.length_reverse] at hm
      simp at hp
      simp
      omega
  calc (backfillRun old lim targets).countP (fun oi => oi = some i)
      ≤ (padRun (old.reverse.map (fun x => -x)) lim
          (targets.reverse.map (fun x => -x))).countP
          (fun oi => oi = some (old.length - 1 - i)) := hmono
    _ ≤ lim + 1 := hpad

theorem ite_eq_or {α : Type} (c : Prop) [inst : Decidable c] (a b : α) :
    (if c then a else b) = a ∨ (if c then a else b) = b := by
  split
  · exact .inl rfl
  · exact .inr rfl

theorem nearestCombine_eq_or (old : List Int) (t : Int) (l r : Option Nat) :
    nearestCombine old t l r = l ∨ nearestCombine old t l r = r := by
  cases r with
  | none => exact .inl rfl
  | some ri =>
    simp only [nearestCombine]
    exact ite_eq_or _ _ _

theorem combineAll_countP_le (old : List Int) (i : Nat) :
    ∀ (ts : List Int) (ls rs : List (Option Nat)),
      (combineAll old ts ls rs).countP (fun oi => oi = some i) ≤
        ls.countP (fun oi => oi = some i) + rs.countP (fun oi => oi = some i) := by
  intro ts
  induction ts with
  | nil => intro ls rs; simp [combineAll]
  | cons t ts ih =>
    intro ls rs
    cases ls with
    | nil => simp [combineAll]
    | cons l ls =>
      cases rs with
      | nil => simp [combineAll]
      | cons r rs =>
        simp only [combineAll, List.countP_cons]
        have hrec := ih ls rs
        rcases nearestCombine_eq_or old t l r with h | h <;> rw [h] <;>
          by_cases hl : l = some i <;> by_cases hr : r = some i <;>
          simp [hl, hr] <;> omega

theorem reindexIdx_countP_le (old : List Int) (lim : Nat) (targets : List Int)
    (i : Nat) (hs : targets.Sorted (· < ·)) :
    (reindexIdx old lim targets).countP (fun oi => oi = some i) ≤ 2 * lim + 2 := by
  have hc := combineAll_countP_le old i targets (padRun old lim targets)
    (backfillRun old lim targets)
  have hp := padRun_countP_le old lim i targets hs
  have hb := backfillRun_countP_le old lim i targets hs
  simp only [reindexIdx]
  omega

/-! ### Claim C5 -/

/-- C5 counterexample: source samples at hours 0, 6, 12 aligned onto an
hourly axis with limit 3.  The middle sample (index 1) is reused at six
consecutive reference positions (3..8) — strictly more than the cap of 3 —
and none of the trailing reuses is forced to missing. -/
theorem C5_counterexample_sample_reused_beyond_cap :
    reindexIdx [0, 6, 12] 3 [0, 1, 2, 3, 4, 5, 6, 7, 8, 9, 10, 11, 12] =
      [some 0, some 0, some 0, some 1, some 1, some 1, some 1, some 1, some 1,
        some 2, some 2, some 2, some 2] ∧
    (reindexIdx [0, 6, 12] 3 [0, 1, 2, 3, 4, 5, 6, 7, 8, 9, 10, 11, 12]).countP
      (fun oi => oi = some 1) = 6 ∧
    3 < 6 := by
  refine ⟨by decide, by decide, by decide⟩

/-- C5 amended: the reindex limit caps reuse per fill direction, not
overall — over a strictly increasing reference axis, a source sample fills
at most limit+1 positions on the forward (pad) side and at most limit+1 on
the backward (backfill) side (exact match included), so one sample can
occupy up to 2*limit+2 reference positions in the combined nearest result;
reuse beyond the cap within one direction falls to the other direction's
sample rather than being forced to missing. -/
theorem C5_per_direction_fill_cap :
    ∀ (old : List Int) (lim : Nat) (targets : List Int) (i : Nat),
      targets.Sorted (· < ·) →
      (padRun old lim targets).countP (fun oi => oi = some i) ≤ lim + 1 ∧
      (backfillRun old lim targets).countP (fun oi => oi = some i) ≤ lim + 1 ∧
      (reindexIdx old lim targets).countP (fun oi => oi = some i) ≤ 2 * lim + 2 :=
  fun old lim targets i hs =>
    ⟨padRun_countP_le old lim i targets hs,
     backfillRun_countP_le old lim i targets hs,
     reindexIdx_countP_le old lim targets i hs⟩

/-- Witness for C5 amended at the 6-hourly scenario with limit 3. -/
theorem C5_per_direction_fill_cap_witness :
    (padRun [0, 6, 12] 3 [0, 1, 2, 3, 4, 5, 6, 7, 8, 9, 10, 11, 12]).countP
        (fun oi => oi = some 1) ≤ 3 + 1 ∧
    (backfillRun [0, 6, 12] 3 [0, 1, 2, 3, 4, 5, 6, 7, 8, 9, 10, 11, 12]).countP
        (fun oi => oi = some 1) ≤ 3 + 1 ∧
    (reindexIdx [0, 6, 12] 3 [0, 1, 2, 3, 4, 5, 6, 7, 8, 9, 10, 11, 12]).countP
        (fun oi => oi = some 1) ≤ 2 * 3 + 2 :=
  C5_per_direction_fill_cap [0, 6, 12] 3 [0, 1, 2, 3, 4, 5, 6, 7, 8, 9, 10, 11, 12] 1
    (by decide)

/-! ### Singleton-axis characterisation of the nearest indexer -/

theorem padRun_singleton (old : List Int) (lim : Nat) (t : Int) (hlim : 1 ≤ lim) :
    padRun old lim [t] = [lastLE old t] := by
  cases hL : lastLE old t with
  | none => simp only [padRun, padGo, hL]
  | some m =>
    simp only [padRun, padGo, hL, ite_self]
    split
    · rfl
    · rw [if_pos (by omega : (0 : Nat) < lim)]

theorem sorted_revneg (old : List Int) (hs : old.Sorted (· ≤ ·)) :
    (old.reverse.map (fun x : Int => -x)).Sorted (· ≤ ·) := by
  have hrev : List.Pairwise (fun a b : Int => b ≤ a) old.reverse :=
    List.pairwise_reverse.mpr hs
  exact List.Pairwise.map _ (fun h => by omega) hrev

theorem backfillRun_singleton (old : List Int) (lim : Nat) (t : Int)
    (hlim : 1 ≤ lim) (hs : old.Sorted (· ≤ ·)) :
    backfillRun old lim [t] = [firstGE old t] := by
  have h1 : backfillRun old lim [t] =
      [Option.map (fun j => old.length - 1 - j)
        (lastLE (old.reverse.map (fun x => -x)) (-t))] := by
    simp only [backfillRun]
    rw [show ([t].reverse.map (fun x : Int => -x)) = [-t] from rfl,
      padRun_singleton _ _ _ hlim]
    rfl
  rw [h1]
  have hs2 := sorted_revneg old hs
  have hmono1 : ∀ x y : Int, x ≤ y → (decide (y ≤ -t)) = true →
      (decide (x ≤ -t)) = true := by
    intro x y hxy hy
    simp at hy ⊢
    omega
  have hTW := length_takeWhile_eq_countP (fun x => decide (x ≤ -t)) hmono1 _ hs2
  have hcnt : (old.reverse.map (fun x : Int => -x)).countP (fun x => decide (x ≤ -t)) =
      old.countP (fun x => decide (t ≤ x)) := by
    rw [List.countP_map, List.countP_reverse]
    apply List.countP_congr
    intro x hx
    simp only [Function.comp_apply]
    simp
  have hsplit : old.countP (fun x => decide (x < t)) +
      old.countP (fun x => decide (t ≤ x)) = old.length := by
    have hlen := List.length_eq_countP_add_countP (fun x => decide (x < t)) old
    have hcong : old.countP (fun a => decide (¬ (decide (a < t)) = true)) =
        old.countP (fun x => decide (t ≤ x)) := by
      apply List.countP_congr
      intro x hx
      simp
    omega
  simp only [lastLE, firstGE]
  rw [hTW, hcnt]
  by_cases hB : old.countP (fun x => decide (t ≤ x)) = 0
  · rw [if_pos hB, if_pos (by omega)]
    rfl
  · rw [if_neg hB, if_neg (by omega)]
    have hfix : old.length - 1 - (old.countP (fun x => decide (t ≤ x)) - 1) =
        old.countP (fun x => decide (x < t)) := by omega
    simp [hfix]

/-! ### Order facts about lastLE and firstGE on a sorted axis -/

theorem lastLE_spec_some (old : List Int) (t : Int) (hs : old.Sorted (· ≤ ·))
    (i : Nat) (h : lastLE old t = some i) :
    i < old.length ∧ (∀ hi : i < old.length, old.get ⟨i, hi⟩ ≤ t) ∧
      (∀ j (hj : j < old.length), old.get ⟨j, hj⟩ ≤ t → j ≤ i) := by
  have hlt := lastLE_lt_length old t i h
  have hmono : ∀ x y : Int, x ≤ y → (decide (y ≤ t)) = true →
      (decide (x ≤ t)) = true := by
    intro x y hxy hy
    simp at hy ⊢
    omega
  have hiff := sorted_get_countP_iff (fun x => decide (x ≤ t)) hmono old hs
  have hTW := length_takeWhile_eq_countP (fun x => decide (x ≤ t)) hmono old hs
  simp only [lastLE] at h
  split at h
  · exact absurd h (by simp)
  · rename_i hn
    cases h
    refine ⟨hlt, ?_, ?_⟩
    · intro hi
      have hb := (hiff _ hi).mpr (by omega)
      simpa using hb
    · intro j hj hle
      have hb := (hiff j hj).mp (by simpa using hle)
      omega

theorem lastLE_spec_none (old : List Int) (t : Int) (hs : old.Sorted (· ≤ ·))
    (h : lastLE old t = none) :
    ∀ j (hj : j < old.length), t < old.get ⟨j, hj⟩ := by
  have hmono : ∀ x y : Int, x ≤ y → (decide (y ≤ t)) = true →
      (decide (x ≤ t)) = true := by
    intro x y hxy hy
    simp at hy ⊢
    omega
  have hiff := sorted_get_countP_iff (fun x => decide (x ≤ t)) hmono old hs
  have hTW := length_takeWhile_eq_countP (fun x => decide (x ≤ t)) hmono old hs
  simp only [lastLE] at h
  split at h
  · rename_i hz
    intro j hj
    by_contra hc
    push_neg at hc
    have hb := (hiff j hj).mp (by simpa using hc)
    omega
  · exact absurd h (by simp)

theorem firstGE_spec_some (old : List Int) (t : Int) (hs : old.Sorted (· ≤ ·))
    (k : Nat) (h : firstGE old t = some k) :
    k < old.length ∧ (∀ hk : k < old.length, t ≤ old.get ⟨k, hk⟩) ∧
      (∀ j (hj : j < old.length), t ≤ old.get ⟨j, hj⟩ → k ≤ j) := by
  have hmono : ∀ x y : Int, x ≤ y → (decide (y < t)) = true →
      (decide (x < t)) = true := by
    intro x y hxy hy
    simp at hy ⊢
    omega
  have hiff := sorted_get_countP_iff (fun x => decide (x < t)) hmono old hs
  have hklen := List.countP_le_length (fun x => decide (x < t)) (l := old)
  simp only [firstGE] at h
  split at h
  · exact absurd h (by simp)
  · rename_i hn
    cases h
    refine ⟨by omega, ?_, ?_⟩
    · intro hk
      by_contra hc
      push_neg at hc
      have hb := (hiff _ hk).mp (by simpa using hc)
      omega
    · intro j hj hle
      by_contra hc
      push_neg at hc
      have hb := (hiff j hj).mpr (by omega)
      have : old.get ⟨j, hj⟩ < t := by simpa using hb
      omega

theorem firstGE_spec_none (old : List Int) (t : Int) (hs : old.Sorted (· ≤ ·))
    (h : firstGE old t = none) :
    ∀ j (hj : j < old.length), old.get ⟨j, hj⟩ < t := by
  have hmono : ∀ x y : Int, x ≤ y → (decide (y < t)) = true →
      (decide (x < t)) = true := by
    intro x y hxy hy
    simp at hy ⊢
    omega
  have hiff := sorted_get_countP_iff (fun x => decide (x < t)) hmono old hs
  simp only [firstGE] at h
  split at h
  · rename_i hfull
    intro j hj
    have hb := (hiff j hj).mpr (by omega)
    simpa using hb
  · exact absurd h (by simp)

theorem getD_eq_get_of_lt (l : List Int) (d : Int) {n : Nat} (hn : n < l.length) :
    l.getD n d = l.get ⟨n, hn⟩ := by
  rw [List.getD_eq_getElem l d hn, List.get_eq_getElem]

/-! ### Claim C4 -/

/-- C4 counterexample: (a) no distance tolerance is applied — a reference
instant a million seconds away from the only source sample is still
filled, not missing, though the distance vastly exceeds the scenario's
30-minute (1800 s) tolerance; (b) with the fill limit the chosen sample is
not even the globally nearest one: with sources 0 and 100 and limit 3,
reference position 4 takes the sample at 100 (distance 96) although 0
(distance 4) is nearer, the forward-fill budget of source 0 being spent. -/
theorem C4_counterexample_tolerance_ignored :
    (reindex_nearest [1000000] [5] 3 [0] = [some 5] ∧
      ((1000000 : Int) - 0).natAbs > 1800) ∧
    (reindexIdx [0, 100] 3 [1, 2, 3, 4] = [some 0, some 0, some 0, some 1] ∧
      ((100 : Int) - 4).natAbs > ((0 : Int) - 4).natAbs) := by
  refine ⟨⟨by decide, by decide⟩, by decide, by decide⟩

/-- C4 amended: the aligner applies no distance tolerance — on a
single-instant reference axis over a nonempty sorted source (where no fill
budget is ever spent), the output position is always filled, with the value
of a globally nearest source sample, at arbitrary distance; distance never
forces a missing value.  (Across longer axes the choice is the nearest
among direction-eligible samples only, per the C5 analysis.) -/
theorem C4_nearest_no_tolerance_singleton_axis :
    ∀ (old vals : List Int) (lim : Nat) (t : Int),
      old ≠ [] → old.Sorted (· ≤ ·) → vals.length = old.length → 1 ≤ lim →
      ∃ i, ∃ hi : i < old.length,
        (∃ v, vals.get? i = some v) ∧
        reindex_nearest old vals lim [t] = [vals.get? i] ∧
        ∀ j (hj : j < old.length),
          (old.get ⟨i, hi⟩ - t).natAbs ≤ (old.get ⟨j, hj⟩ - t).natAbs := by
  intro old vals lim t hne hs hlen hlim
  have hlen0 : 0 < old.length := List.length_pos.mpr hne
  have hout : ∀ oi : Option Nat,
      nearestCombine old t (lastLE old t) (firstGE old t) = oi →
      reindex_nearest old vals lim [t] = [oi.bind (fun x => vals.get? x)] := by
    intro oi hoi
    simp [reindex_nearest, reindexIdx, padRun_singleton old lim t hlim,
      backfillRun_singleton old lim t hlim hs, combineAll, hoi]
  have hmonog : ∀ (a b : Fin old.length), a ≤ b → old.get a ≤ old.get b :=
    fun a b hab => hs.rel_get_of_le hab
  cases hL : lastLE old t with
  | none =>
    cases hR : firstGE old t with
    | none =>
      exfalso
      have h2 := lastLE_spec_none old t hs hL 0 hlen0
      have h3 := firstGE_spec_none old t hs hR 0 hlen0
      omega
    | some k =>
      obtain ⟨hklt, hkge, hkmin⟩ := firstGE_spec_some old t hs k hR
      have hgdk : old.getD k 0 = old.get ⟨k, hklt⟩ := getD_eq_get_of_lt old 0 hklt
      have hgdl : old.getD (old.length - 1) 0 =
          old.get ⟨old.length - 1, by omega⟩ := getD_eq_get_of_lt old 0 (by omega)
      have hkle : old.get ⟨k, hklt⟩ ≤ old.get ⟨old.length - 1, by omega⟩ :=
        hmonog _ _ (by simp only [Fin.mk_le_mk]; omega)
      have htk : t ≤ old.get ⟨k, hklt⟩ := hkge hklt
      have hcomb : nearestCombine old t none (some k) = some k := by
        simp only [nearestCombine]
        rw [hgdl, hgdk, if_neg (by omega)]
      refine ⟨k, hklt, ⟨_, List.get?_eq_get (by omega)⟩, ?_, ?_⟩
      · rw [hL, hR] at hout
        rw [hout _ hcomb]
        rfl
      · intro j hj
        have hjgt := lastLE_spec_none old t hs hL j hj
        have hkj := hkmin j hj (by omega)
        have hmg := hmonog ⟨k, hklt⟩ ⟨j, hj⟩ (by simp only [Fin.mk_le_mk]; omega)
        omega
  | some iL =>
    obtain ⟨hilt, hile, himax⟩ := lastLE_spec_some old t hs iL hL
    have hit : old.get ⟨iL, hilt⟩ ≤ t := hile hilt
    cases hR : firstGE old t with
    | none =>
      have hcomb : nearestCombine old t (some iL) none = some iL := rfl
      refine ⟨iL, hilt, ⟨_, List.get?_eq_get (by omega)⟩, ?_, ?_⟩
      · rw [hL, hR] at hout
        rw [hout _ hcomb]
        rfl
      · intro j hj
        have hjlt := firstGE_spec_none old t hs hR j hj
        have hji : j ≤ iL := himax j hj (le_of_lt hjlt)
        have hmg := hmonog ⟨j, hj⟩ ⟨iL, hilt⟩ (by simp only [Fin.mk_le_mk]; omega)
        omega
    | some k =>
      obtain ⟨hklt, hkge, hkmin⟩ := firstGE_spec_some old t hs k hR
      have htk : t ≤ old.get ⟨k, hklt⟩ := hkge hklt
      have hgdk : old.getD k 0 = old.get ⟨k, hklt⟩ := getD_eq_get_of_lt old 0 hklt
      have hgdi : old.getD iL 0 = old.get ⟨iL, hilt⟩ := getD_eq_get_of_lt old 0 hilt
      by_cases hcnd : (old.get ⟨iL, hilt⟩ - t).natAbs < (old.get ⟨k, hklt⟩ - t).natAbs
      · have hcomb : nearestCombine old t (some iL) (some k) = some iL := by
          simp only [nearestCombine, hgdi, hgdk]
          exact if_pos hcnd
        refine ⟨iL, hilt, ⟨_, List.get?_eq_get (by omega)⟩, ?_, ?_⟩
        · rw [hL, hR] at hout
          rw [hout _ hcomb]
          rfl
        · intro j hj
          rcases le_total (old.get ⟨j, hj⟩) t with hjle | hjge
          · have hji := himax j hj hjle
            have hmg := hmonog ⟨j, hj⟩ ⟨iL, hilt⟩ (by simp only [Fin.mk_le_mk]; omega)
            omega
          · have hkj := hkmin j hj hjge
            have hmg := hmonog ⟨k, hklt⟩ ⟨j, hj⟩ (by simp only [Fin.mk_le_mk]; omega)
            omega
      · have hcomb : nearestCombine old t (some iL) (some k) = some k := by
          simp only [nearestCombine, hgdi, hgdk]
          exact if_neg hcnd
        refine ⟨k, hklt, ⟨_, List.get?_eq_get (by omega)⟩, ?_, ?_⟩
        · rw [hL, hR] at hout
          rw [hout _ hcomb]
          rfl
        · intro j hj
          rcases le_total (old.get ⟨j, hj⟩) t with hjle | hjge
          · have hji := himax j hj hjle
            have hmg := hmonog ⟨j, hj⟩ ⟨iL, hilt⟩ (by simp only [Fin.mk_le_mk]; omega)
            omega
          · have hkj := hkmin j hj hjge
            have hmg := hmonog ⟨k, hklt⟩ ⟨j, hj⟩ (by simp only [Fin.mk_le_mk]; omega)
            omega

/-- Witness for C4 amended: a single source sample a million seconds away
from the reference instant is still chosen. -/
theorem C4_nearest_no_tolerance_witness :
    ∃ i, ∃ hi : i < ([(1000000 : Int)] : List Int).length,
      (∃ v, ([(5 : Int)] : List Int).get? i = some v) ∧
      reindex_nearest [1000000] [5] 3 [0] = [([(5 : Int)] : List Int).get? i] ∧
      ∀ j (hj : j < ([(1000000 : Int)] : List Int).length),
        (([(1000000 : Int)] : List Int).get ⟨i, hi⟩ - 0).natAbs ≤
          (([(1000000 : Int)] : List Int).get ⟨j, hj⟩ - 0).natAbs :=
  C4_nearest_no_tolerance_singleton_axis [1000000] [5] 3 0 (by simp)
    (by simp) rfl (by omega)

end WaveStats
